import Mathlib

/-!
Verification of the scanner-orchestration and job-execution core of the
`hunter` security-scanning engine (Go), via a shallow embedding in Lean.

Embedded source files:
- `pkg/types/result.go` — Severity, SeverityRank, Finding, ScanResult
- `pkg/types` Target struct
- `internal/scanner/scanner.go` — Scanner interface, Options
- `internal/scanner/registry.go` — Registry (Register / Get / All)
- `internal/scanner/runner.go` — Runner (RunAll / RunOne)
- `internal/web/jobs/job.go` — Job, JobStatus, JobProgress
- `internal/web/jobs/manager.go` — Manager (Create / Start / execute / Get / Delete)

Modelling conventions:
- Go `map[string]T` is an association list `List (String × T)` whose keys are
  kept distinct by the update-or-append operation `mapUpdate` (Go map
  assignment semantics: assigning to an existing key replaces its value).
- Go `time.Duration` and `UnixNano` timestamps are `Int` (nanoseconds).
- A Go `error` value is `GoError`. The source constructs errors only through
  `fmt.Errorf` without `%w`, which produces a plain formatted-message error
  carrying no type information beyond its message string; this is the
  `GoError.errorString` constructor. The constructor `GoError.notFound`
  represents a dedicated typed not-found error value (such as a custom error
  struct a caller could match with `errors.As`); the embedded source never
  constructs it, which is exactly what the typed-error claims are about.
- A Go scanner's return pair `(*types.ScanResult, error)` is
  `Option ScanResult × Option GoError`: both components may be absent,
  as both Go pointers and Go errors may be nil.
- `context.Context` cancellation observed by `RunAll` before gate admission
  is an oracle `cancelled : Nat → Bool` giving, per launched task index,
  whether the `ctx.Done()` branch of the `select` wins; the context error
  message is the constant `ctxCanceledMsg`.
- Goroutine interleaving in `RunAll` only affects the order of the results
  slice (the spec guarantees no ordering); the model collects results in
  request order. The admission gate itself is modelled separately as a
  small-step transition system (`GateStep`) over task counters.
-/

/-- Go string quoting as produced by the `%q` verb of `fmt.Errorf`, for the
quote and backslash characters (the only escapes relevant to scanner and job
identifiers; other printable characters are passed through unchanged). -/
def goQuoteChar (c : Char) : String :=
  if c = '"' then "\\\"" else if c = '\\' then "\\\\" else String.singleton c

/-- `%q`-style quoting of a whole string: surrounding double quotes plus
per-character escaping. -/
def goQuote (s : String) : String :=
  "\"" ++ String.join (s.toList.map goQuoteChar) ++ "\""

/-- Universe of Go error values constructed or matched by this codebase.
`errorString` is what `errors.New` / `fmt.Errorf` (no `%w`) return: a value
whose only content is its message. `notFound` stands for a dedicated typed
not-found error (a distinct dynamic type matchable without parsing the
message); the embedded source never constructs one. -/
inductive GoError where
  | errorString (msg : String)
  | notFound (kind what : String)
deriving Repr, DecidableEq

/-- The `Error()` method: the message carried by a Go error value. -/
def GoError.msg : GoError → String
  | .errorString m => m
  | .notFound kind what => kind ++ " " ++ goQuote what ++ " not found"

/-- Whether an error value is a dedicated typed not-found error,
distinguishable by type rather than by message inspection. -/
def GoError.isTypedNotFound : GoError → Bool
  | .notFound _ _ => true
  | .errorString _ => false

/-- `pkg/types` Target: `{Host, Ports, URL, Scheme}`. -/
structure Target where
  host : String
  ports : List Int := []
  url : String := ""
  scheme : String := ""
deriving Repr, DecidableEq

/-- `pkg/types/result.go` Severity constants. `Severity` is a Go string type,
so arbitrary strings inhabit it. -/
def severityCritical : String := "CRITICAL"

def severityHigh : String := "HIGH"

def severityMedium : String := "MEDIUM"

def severityLow : String := "LOW"

def severityInfo : String := "INFO"

/-- `pkg/types/result.go` SeverityRank: numeric rank for sorting
(lower = more severe); any unrecognized string falls to the default case. -/
def SeverityRank (s : String) : Nat :=
  if s = severityCritical then 0
  else if s = severityHigh then 1
  else if s = severityMedium then 2
  else if s = severityLow then 3
  else if s = severityInfo then 4
  else 5

/-- `pkg/types/result.go` Finding. Severity is the Go string type; metadata
`map[string]string` is an association list. -/
structure Finding where
  title : String
  description : String
  severity : String
  evidence : String := ""
  remediation : String := ""
  metadata : List (String × String) := []
deriving Repr, DecidableEq

/-- `pkg/types/result.go` ScanResult. `startedAt`/`completedAt` are
nanosecond timestamps; `error` is the embedded failure string ("" = absent,
matching Go's zero value with `omitempty`). -/
structure ScanResult where
  scannerName : String
  target : Target
  startedAt : Int := 0
  completedAt : Int := 0
  findings : List Finding := []
  error : String := ""
deriving Repr, DecidableEq

/-- `internal/scanner/scanner.go` Options. `extraArgs` (`map[string]any`) is
an opaque scanner-specific bag the core never interprets; it is omitted from
the model because no embedded operation reads it. -/
structure Options where
  concurrency : Int := 0
  timeout : Int := 0
  verbose : Bool := false
deriving Repr, DecidableEq

/-- `internal/scanner/scanner.go` DefaultOptions. -/
def DefaultOptions : Options :=
  { concurrency := 10, timeout := 5000000000 }

/-- `internal/scanner/scanner.go` Scanner interface: Name, Description, and
Run. `run` returns the Go pair `(*types.ScanResult, error)`; the model drops
the context argument because cancellation is handled by the callers'
oracles. -/
structure Scanner where
  name : String
  description : String
  run : Target → Options → Option ScanResult × Option GoError

/-- Go map assignment `m[k] = v`: replace the value at an existing key,
otherwise add a new entry. -/
def mapUpdate {α : Type} (m : List (String × α)) (k : String) (v : α) :
    List (String × α) :=
  if (m.lookup k).isSome then
    m.map (fun p => if p.1 = k then (k, v) else p)
  else
    m ++ [(k, v)]

/-- `internal/scanner/registry.go` Registry: the `scanners map[string]Scanner`
field as an association list with distinct keys. -/
structure Registry where
  scanners : List (String × Scanner)

/-- `internal/scanner/registry.go` NewRegistry. -/
def NewRegistry : Registry := ⟨[]⟩

/-- `internal/scanner/registry.go` Register: `r.scanners[s.Name()] = s`. -/
def Registry.register (r : Registry) (s : Scanner) : Registry :=
  ⟨mapUpdate r.scanners s.name s⟩

/-- `internal/scanner/registry.go` Get: map lookup, or
`fmt.Errorf("scanner %q not found", name)`. -/
def Registry.get (r : Registry) (name : String) : Except GoError Scanner :=
  match r.scanners.lookup name with
  | some s => .ok s
  | none => .error (.errorString ("scanner " ++ goQuote name ++ " not found"))

/-- `internal/scanner/registry.go` All: the registered scanners (map values;
Go iterates them in arbitrary order, the model uses insertion order). -/
def Registry.all (r : Registry) : List Scanner :=
  r.scanners.map (·.2)

/-- Well-formedness of the map encoding: keys are distinct, as they are for
every Go map. Every registry built from `NewRegistry` by `register` calls
satisfies it. -/
def Registry.wf (r : Registry) : Prop :=
  (r.scanners.map (·.1)).Nodup

/-- The message of `ctx.Err()` when `RunAll` observes cancellation before
acquiring a gate slot (`context.Canceled.Error()`). -/
def ctxCanceledMsg : String := "context canceled"

/-- One task of `internal/scanner/runner.go` RunAll, for the `i`-th requested
name: registry lookup failure synthesizes an error entry; otherwise the
spawned goroutine either loses the admission `select` to `ctx.Done()`
(oracle `cancelled i`) and records the context error, or runs the scanner
and records the error entry (checked first, as in the source), the returned
result, or — when the scanner returns a nil result with a nil error —
nothing at all. -/
def runAllEntry (reg : Registry) (target : Target) (opts : Options)
    (cancelled : Nat → Bool) (i : Nat) (name : String) : Option ScanResult :=
  match reg.get name with
  | .error e => some { scannerName := name, target := target, error := e.msg }
  | .ok s =>
    if cancelled i then
      some { scannerName := s.name, target := target, error := ctxCanceledMsg }
    else
      match s.run target opts with
      | (_, some e) => some { scannerName := s.name, target := target, error := e.msg }
      | (some r, none) => some r
      | (none, none) => none

/-- The collection loop of RunAll: one entry attempt per requested name, in
request order (the source collects in completion order; only multiset
content and count are specified). -/
def runAllAux (reg : Registry) (target : Target) (opts : Options)
    (cancelled : Nat → Bool) : Nat → List String → List ScanResult
  | _, [] => []
  | i, name :: rest =>
    match runAllEntry reg target opts cancelled i name with
    | some r => r :: runAllAux reg target opts cancelled (i + 1) rest
    | none => runAllAux reg target opts cancelled (i + 1) rest

/-- `internal/scanner/runner.go` RunAll. -/
def Runner.runAll (reg : Registry) (names : List String) (target : Target)
    (opts : Options) (cancelled : Nat → Bool) : List ScanResult :=
  runAllAux reg target opts cancelled 0 names

/-- `internal/scanner/runner.go` RunOne: registry lookup failure returns
`(nil, err)`; otherwise the scanner's own pair is returned unchanged. -/
def Runner.runOne (reg : Registry) (name : String) (target : Target)
    (opts : Options) : Option ScanResult × Option GoError :=
  match reg.get name with
  | .error e => (none, some e)
  | .ok s => s.run target opts

/-- The clamp at the top of RunAll:
`concurrency := opts.Concurrency; if concurrency < 1 { concurrency = 1 }` —
the capacity of the admission-gate channel `make(chan struct\x7b\x7d, concurrency)`. -/
def boundedConcurrency (c : Int) : Nat :=
  if c < 1 then 1 else c.toNat

/-- Counter abstraction of RunAll's goroutines for one call: tasks that have
not yet been admitted by the gate, tasks currently holding a gate slot and
executing `Run`, and tasks that have finished (released their slot or were
cancelled before admission). -/
structure GateState where
  waiting : Nat
  running : Nat
  finished : Nat
deriving Repr, DecidableEq

/-- Small-step transitions of the admission gate with capacity `cap`:
`acquire` is `sem <- struct\x7b\x7d` succeeding, which requires a free slot in
the capacity-`cap` channel buffer; `finish` is `Run` returning and the
deferred `<-sem` releasing the slot; `cancel` is the `ctx.Done()` branch of
the admission `select` winning, so the task ends without ever holding a
slot. A task executes `Run` only in the `running` state, i.e. only while it
holds a slot. -/
inductive GateStep (cap : Nat) : GateState → GateState → Prop where
  | acquire (s : GateState) (hw : 0 < s.waiting) (hr : s.running < cap) :
      GateStep cap s ⟨s.waiting - 1, s.running + 1, s.finished⟩
  | finish (s : GateState) (hr : 0 < s.running) :
      GateStep cap s ⟨s.waiting, s.running - 1, s.finished + 1⟩
  | cancel (s : GateState) (hw : 0 < s.waiting) :
      GateStep cap s ⟨s.waiting - 1, s.running, s.finished + 1⟩

/-- A RunAll invocation with `n` admitted-or-cancelled tasks starts with all
`n` tasks waiting at the gate. -/
def gateInit (n : Nat) : GateState := ⟨n, 0, 0⟩

/-- `internal/web/jobs/job.go` JobStatus constants. -/
inductive JobStatus where
  | pending
  | running
  | completed
  | failed
deriving Repr, DecidableEq

/-- `internal/web/jobs/job.go` JobProgress. -/
structure JobProgress where
  totalScanners : Nat
  completedScanners : Nat := 0
  currentScanner : String := ""
deriving Repr, DecidableEq

/-- `internal/web/jobs/job.go` Job. Timestamps are nanosecond `Int`s with 0
as Go's zero time. -/
structure Job where
  id : String
  target : Target
  scanners : List String
  options : Options
  status : JobStatus
  results : List ScanResult := []
  error : String := ""
  createdAt : Int := 0
  startedAt : Int := 0
  completedAt : Int := 0
  progress : JobProgress
deriving Repr, DecidableEq

/-- `internal/web/jobs/manager.go` defaultNewUUID:
`fmt.Sprintf("%d", time.Now().UnixNano())`, applied to the nanosecond clock
reading the call observes. Despite its comment ("timestamp+counter based
ID"), the source includes no counter: the id is the bare timestamp. -/
def defaultNewUUID (nowUnixNano : Int) : String :=
  toString nowUnixNano

/-- `internal/web/jobs/manager.go` Manager: the `jobs map[string]*Job` store
(the runner is passed separately to the execution model). -/
structure ManagerState where
  jobs : List (String × Job)
deriving Repr, DecidableEq

/-- `internal/web/jobs/manager.go` NewManager: empty job store. -/
def NewManager : ManagerState := ⟨[]⟩

/-- `internal/web/jobs/manager.go` Create: build a pending job whose id is
`newUUID()` evaluated at clock reading `idClock`, with `createdAt` from the
separate `time.Now()` reading `now`, store it under its id, return it. -/
def ManagerState.create (m : ManagerState) (target : Target)
    (scanners : List String) (opts : Options) (idClock now : Int) :
    Job × ManagerState :=
  let job : Job :=
    { id := defaultNewUUID idClock
      target := target
      scanners := scanners
      options := opts
      status := .pending
      createdAt := now
      progress := { totalScanners := scanners.length } }
  (job, ⟨mapUpdate m.jobs job.id job⟩)

/-- `internal/web/jobs/manager.go` Start: unknown id fails with
`fmt.Errorf("job %q not found", jobID)`; any job found under the id — in any
status — is set to Running with `startedAt = now` (the source performs no
status check), and its background execution is launched. -/
def ManagerState.start (m : ManagerState) (jobID : String) (now : Int) :
    Except GoError ManagerState :=
  match m.jobs.lookup jobID with
  | none => .error (.errorString ("job " ++ goQuote jobID ++ " not found"))
  | some job =>
      .ok ⟨mapUpdate m.jobs jobID { job with status := .running, startedAt := now }⟩

/-- `internal/web/jobs/manager.go` Get: lookup or
`fmt.Errorf("job %q not found", jobID)`. -/
def ManagerState.get (m : ManagerState) (jobID : String) : Except GoError Job :=
  match m.jobs.lookup jobID with
  | none => .error (.errorString ("job " ++ goQuote jobID ++ " not found"))
  | some job => .ok job

/-- `internal/web/jobs/manager.go` Delete: remove the entry, or fail with
`fmt.Errorf("job %q not found", jobID)` when absent. -/
def ManagerState.delete (m : ManagerState) (jobID : String) :
    Except GoError ManagerState :=
  match m.jobs.lookup jobID with
  | none => .error (.errorString ("job " ++ goQuote jobID ++ " not found"))
  | some _ => .ok ⟨m.jobs.filter (fun p => p.1 ≠ jobID)⟩

/-- The per-job context deadline set at the top of `Manager.execute`:
`if job.Options.Timeout > 0` a deadline of
`job.Options.Timeout * time.Duration(len(job.Scanners)+1)` is installed,
otherwise the background context carries no deadline. -/
def jobDeadline (timeout : Int) (numScanners : Nat) : Option Int :=
  if 0 < timeout then some (timeout * ((numScanners : Int) + 1)) else none

/-- One iteration of the `Manager.execute` loop for scanner `name`: record it
as the current scanner, invoke the runner's single-scanner path, then append
an error entry (error checked first, as in the source), or the returned
result, or — on a nil result with nil error — nothing; finally increment
`completedScanners`. -/
def executeStep (reg : Registry) (j : Job) (name : String) : Job :=
  let j := { j with progress := { j.progress with currentScanner := name } }
  let appended :=
    match Runner.runOne reg name j.target j.options with
    | (_, some e) =>
        j.results ++ [{ scannerName := name, target := j.target, error := e.msg }]
    | (some r, none) => j.results ++ [r]
    | (none, none) => j.results
  { j with
      results := appended
      progress := { j.progress with
                      currentScanner := name
                      completedScanners := j.progress.completedScanners + 1 } }

/-- `Manager.execute` when no scanner faults: fold the loop over all scanner
names, then mark the job Completed at time `now` and clear the current
scanner. -/
def executeRun (reg : Registry) (job : Job) (now : Int) : Job :=
  let j := job.scanners.foldl (executeStep reg) job
  { j with
      status := .completed
      completedAt := now
      progress := { j.progress with
                      totalScanners := j.progress.totalScanners
                      completedScanners := j.progress.completedScanners
                      currentScanner := "" } }

/-- `Manager.execute` when the scanner at index `k` of the job's list panics
inside its `Run`: the first `k` iterations complete normally, the `k`-th
scanner has been recorded as current, and the deferred `recover` boundary
then marks the job Failed with message `"panic: %v"` and sets
`completedAt`. -/
def executePanicked (reg : Registry) (job : Job) (now : Int) (k : Nat)
    (panicMsg : String) : Job :=
  let j := (job.scanners.take k).foldl (executeStep reg) job
  let j :=
    match job.scanners.get? k with
    | some name => { j with progress := { j.progress with currentScanner := name } }
    | none => j
  { j with status := .failed, error := "panic: " ++ panicMsg, completedAt := now }

/-- Concrete target used by witnesses and counterexamples. -/
def sampleTarget : Target := { host := "localhost", scheme := "https" }

/-- A registered scanner whose `Run` returns a nil result and a nil error —
a legal return of the Go `Scanner` interface (`(*ScanResult, error)`), which
the orchestration code guards for with `else if result != nil`. -/
def nilNilScanner : Scanner :=
  { name := "nilnil"
    description := "returns nil result with nil error"
    run := fun _ _ => (none, none) }

/-- A well-behaved mock scanner returning one result and no error, as the
repository's own test mocks do. -/
def okScanner (n : String) : Scanner :=
  { name := n
    description := "mock"
    run := fun t _ => (some { scannerName := n, target := t }, none) }

/-- A scanner whose `Run` returns a nil result together with a Go-level
error, as the repository's `dirs` scanner does when its wordlist cannot be
loaded (`return nil, fmt.Errorf("loading wordlist: %w", err)`). -/
def errScanner (n msg : String) : Scanner :=
  { name := n
    description := "mock failing"
    run := fun _ _ => (none, some (.errorString msg)) }

/-- Registry holding only the well-behaved mock scanner `okScanner "a"`. -/
def sampleRegOk : Registry := NewRegistry.register (okScanner "a")

/-- Registry holding only `nilNilScanner`. -/
def sampleRegNilNil : Registry := NewRegistry.register nilNilScanner

/-- Registry holding only the scanner that fails with a Go-level error. -/
def sampleRegErr : Registry := NewRegistry.register (errScanner "e" "boom")

/-- A job that has already reached the terminal Completed status. -/
def completedJob : Job :=
  { id := "1"
    target := sampleTarget
    scanners := []
    options := DefaultOptions
    status := .completed
    progress := { totalScanners := 0 } }

/-- A manager whose store holds `completedJob` under id "1". -/
def sampleManager : ManagerState := ⟨[("1", completedJob)]⟩

/-- A job freshly produced by `Create` for the single scanner name "a". -/
def sampleCreatedJob : Job :=
  (NewManager.create sampleTarget ["a"] DefaultOptions 42 100).1

/-- The manager store after one `Create` call observing clock reading 42. -/
def mgrAfterFirstCreate : ManagerState :=
  (NewManager.create sampleTarget ["a"] DefaultOptions 42 100).2

/-- A second `Create` call on the same manager observing the same
nanosecond clock reading 42 (two calls within one clock tick). -/
def secondCreate : Job × ManagerState :=
  mgrAfterFirstCreate.create sampleTarget ["b"] DefaultOptions 42 101

theorem lookup_mem {α : Type} {m : List (String × α)} {k : String} {v : α}
    (h : m.lookup k = some v) : (k, v) ∈ m := by
  induction m with
  | nil => simp at h
  | cons p rest ih =>
    obtain ⟨a, b⟩ := p
    rw [List.lookup_cons] at h
    by_cases hak : k = a
    · subst hak
      simp at h
      subst h
      exact List.mem_cons_self _ _
    · have hbeq : (k == a) = false := beq_false_of_ne hak
      rw [hbeq] at h
      exact List.mem_cons_of_mem _ (ih h)

theorem lookup_isSome_iff {α : Type} (m : List (String × α)) (k : String) :
    (m.lookup k).isSome ↔ k ∈ m.map (·.1) := by
  induction m with
  | nil => simp
  | cons p rest ih =>
    obtain ⟨a, b⟩ := p
    rw [List.lookup_cons]
    by_cases hak : k = a
    · subst hak
      simp
    · have hbeq : (k == a) = false := beq_false_of_ne hak
      rw [hbeq]
      simp [hak, ih]

theorem lookup_map_replace {α : Type} (m : List (String × α)) (k : String)
    (v : α) :
    (m.map (fun p => if p.1 = k then (k, v) else p)).lookup k
      = if (m.lookup k).isSome then some v else none := by
  induction m with
  | nil => simp
  | cons p rest ih =>
    obtain ⟨a, b⟩ := p
    by_cases hak : k = a
    · subst hak
      simp [List.lookup_cons]
    · have hbeq : (k == a) = false := beq_false_of_ne hak
      have hne : ¬(a = k) := fun h => hak h.symm
      simp only [List.map_cons, if_neg hne, List.lookup_cons, hbeq, ih]

theorem lookup_append_single {α : Type} (m : List (String × α)) (k : String)
    (v : α) (h : m.lookup k = none) : (m ++ [(k, v)]).lookup k = some v := by
  induction m with
  | nil => simp [List.lookup_cons]
  | cons p rest ih =>
    obtain ⟨a, b⟩ := p
    rw [List.lookup_cons] at h
    by_cases hak : k = a
    · subst hak
      simp at h
    · have hbeq : (k == a) = false := beq_false_of_ne hak
      rw [hbeq] at h
      rw [List.cons_append, List.lookup_cons, hbeq]
      exact ih h

theorem lookup_mapUpdate_self {α : Type} (m : List (String × α)) (k : String)
    (v : α) : (mapUpdate m k v).lookup k = some v := by
  unfold mapUpdate
  by_cases hp : (m.lookup k).isSome
  · simp [hp, lookup_map_replace]
  · have hn : m.lookup k = none := by
      cases hm : m.lookup k with
      | none => rfl
      | some w => rw [hm] at hp; simp at hp
    simp [hp, lookup_append_single m k v hn]

theorem map_fst_replace {α : Type} (m : List (String × α)) (k : String)
    (v : α) :
    (m.map (fun p => if p.1 = k then (k, v) else p)).map (·.1) = m.map (·.1) := by
  induction m with
  | nil => rfl
  | cons p rest ih =>
    obtain ⟨a, b⟩ := p
    by_cases hak : a = k
    · subst hak
      simp [ih]
    · simp [hak, ih]

theorem mapUpdate_map_fst {α : Type} (m : List (String × α)) (k : String)
    (v : α) :
    (mapUpdate m k v).map (·.1)
      = if (m.lookup k).isSome then m.map (·.1) else m.map (·.1) ++ [k] := by
  unfold mapUpdate
  by_cases hp : (m.lookup k).isSome
  · rw [if_pos hp, if_pos hp]
    exact map_fst_replace m k v
  · rw [if_neg hp, if_neg hp]
    simp

theorem mapUpdate_nodup {α : Type} (m : List (String × α)) (k : String)
    (v : α) (h : (m.map (·.1)).Nodup) :
    ((mapUpdate m k v).map (·.1)).Nodup := by
  rw [mapUpdate_map_fst]
  by_cases hp : (m.lookup k).isSome
  · rw [if_pos hp]
    exact h
  · have hk : k ∉ m.map (·.1) := by
      rw [← lookup_isSome_iff]
      exact hp
    rw [if_neg hp]
    rw [List.nodup_append]
    refine ⟨h, List.nodup_singleton k, ?_⟩
    intro x hx hxk
    simp at hxk
    subst hxk
    exact hk hx

theorem get_ok_mem {reg : Registry} {name : String} {s : Scanner}
    (h : reg.get name = .ok s) : (name, s) ∈ reg.scanners := by
  unfold Registry.get at h
  cases hl : reg.scanners.lookup name with
  | none => rw [hl] at h; simp at h
  | some t =>
    rw [hl] at h
    have ht : t = s := by
      cases h
      rfl
    subst ht
    exact lookup_mem hl

theorem runAllEntry_isSome (reg : Registry) (t : Target) (o : Options)
    (c : Nat → Bool) (i : Nat) (name : String)
    (hno : ∀ p ∈ reg.scanners, ∀ t' o', p.2.run t' o' ≠ (none, none)) :
    (runAllEntry reg t o c i name).isSome := by
  unfold runAllEntry
  cases hg : reg.get name with
  | error e => simp
  | ok s =>
    by_cases hc : c i
    · simp [hc]
    · have hne := hno (name, s) (get_ok_mem hg) t o
      simp only [hc, Bool.false_eq_true, if_false]
      rcases hr : s.run t o with ⟨ro, eo⟩
      cases eo with
      | some e => simp
      | none =>
        cases ro with
        | some r => simp
        | none => exact absurd hr hne

theorem runAllAux_length (reg : Registry) (t : Target) (o : Options)
    (c : Nat → Bool)
    (hno : ∀ p ∈ reg.scanners, ∀ t' o', p.2.run t' o' ≠ (none, none)) :
    ∀ (i : Nat) (names : List String),
      (runAllAux reg t o c i names).length = names.length := by
  intro i names
  induction names generalizing i with
  | nil => rfl
  | cons name rest ih =>
    obtain ⟨r, hr⟩ :=
      Option.isSome_iff_exists.mp (runAllEntry_isSome reg t o c i name hno)
    simp only [runAllAux, hr, List.length_cons, ih]

theorem executeStep_fields (reg : Registry) (j : Job) (name : String) :
    (executeStep reg j name).progress.completedScanners
        = j.progress.completedScanners + 1 ∧
    (executeStep reg j name).progress.totalScanners = j.progress.totalScanners ∧
    (executeStep reg j name).status = j.status ∧
    (executeStep reg j name).scanners = j.scanners ∧
    (executeStep reg j name).target = j.target ∧
    (executeStep reg j name).options = j.options := by
  unfold executeStep
  rcases hr : Runner.runOne reg name j.target j.options with ⟨ro, eo⟩
  cases eo <;> cases ro <;> simp [hr]

theorem executeStep_results_length (reg : Registry) (j : Job) (name : String)
    (hno : ∀ p ∈ reg.scanners, ∀ t' o', p.2.run t' o' ≠ (none, none)) :
    (executeStep reg j name).results.length = j.results.length + 1 := by
  unfold executeStep
  rcases hr : Runner.runOne reg name j.target j.options with ⟨ro, eo⟩
  cases eo with
  | some e => simp [hr]
  | none =>
    cases ro with
    | some r => simp [hr]
    | none =>
      exfalso
      unfold Runner.runOne at hr
      cases hg : reg.get name with
      | error e => rw [hg] at hr; simp at hr
      | ok s => rw [hg] at hr; exact hno (name, s) (get_ok_mem hg) j.target j.options hr

theorem foldl_executeStep_progress (reg : Registry) (l : List String) (j : Job) :
    ((l.foldl (executeStep reg) j).progress.completedScanners
        = j.progress.completedScanners + l.length) ∧
    ((l.foldl (executeStep reg) j).progress.totalScanners
        = j.progress.totalScanners) ∧
    ((l.foldl (executeStep reg) j).status = j.status) ∧
    ((l.foldl (executeStep reg) j).scanners = j.scanners) ∧
    ((l.foldl (executeStep reg) j).target = j.target) ∧
    ((l.foldl (executeStep reg) j).options = j.options) := by
  induction l generalizing j with
  | nil => simp
  | cons name rest ih =>
    simp only [List.foldl_cons, List.length_cons]
    obtain ⟨h1, h2, h3, h4, h5, h6⟩ := ih (executeStep reg j name)
    obtain ⟨g1, g2, g3, g4, g5, g6⟩ := executeStep_fields reg j name
    refine ⟨?_, ?_, ?_, ?_, ?_, ?_⟩
    · rw [h1, g1]; omega
    · rw [h2, g2]
    · rw [h3, g3]
    · rw [h4, g4]
    · rw [h5, g5]
    · rw [h6, g6]

theorem foldl_executeStep_results (reg : Registry) (l : List String) (j : Job)
    (hno : ∀ p ∈ reg.scanners, ∀ t' o', p.2.run t' o' ≠ (none, none)) :
    (l.foldl (executeStep reg) j).results.length = j.results.length + l.length := by
  induction l generalizing j with
  | nil => simp
  | cons name rest ih =>
    simp only [List.foldl_cons, List.length_cons]
    rw [ih (executeStep reg j name), executeStep_results_length reg j name hno]
    omega

/-- C9: SeverityRank is a total function on strings inducing the order
Critical < High < Medium < Low < Info, and every unrecognized string gets
rank 5, strictly below (less severe than) Info's rank 4, never an error. -/
theorem severityRank_order (s : String)
    (h : s ∉ [severityCritical, severityHigh, severityMedium, severityLow,
              severityInfo]) :
    SeverityRank severityCritical < SeverityRank severityHigh ∧
    SeverityRank severityHigh < SeverityRank severityMedium ∧
    SeverityRank severityMedium < SeverityRank severityLow ∧
    SeverityRank severityLow < SeverityRank severityInfo ∧
    SeverityRank s = 5 ∧
    SeverityRank severityInfo < SeverityRank s := by
  simp only [List.mem_cons, List.not_mem_nil, or_false, not_or] at h
  obtain ⟨h1, h2, h3, h4, h5⟩ := h
  have hs : SeverityRank s = 5 := by
    unfold SeverityRank
    rw [if_neg h1, if_neg h2, if_neg h3, if_neg h4, if_neg h5]
  exact ⟨by decide, by decide, by decide, by decide, hs, by rw [hs]; decide⟩

/-- C9 witness: the unrecognized severity string "UNKNOWN". -/
theorem severityRank_order_witness :
    SeverityRank severityCritical < SeverityRank severityHigh ∧
    SeverityRank severityHigh < SeverityRank severityMedium ∧
    SeverityRank severityMedium < SeverityRank severityLow ∧
    SeverityRank severityLow < SeverityRank severityInfo ∧
    SeverityRank "UNKNOWN" = 5 ∧
    SeverityRank severityInfo < SeverityRank "UNKNOWN" :=
  severityRank_order "UNKNOWN" (by decide)

/-- C10: registering two scanners with the same name leaves exactly one
entry under that name, Get returns the second scanner (last registration
wins, no error or panic), and the registry's name keys stay duplicate-free,
so All() never holds two scanners of the same name. -/
theorem register_last_wins (r : Registry) (s1 s2 : Scanner)
    (hw : r.wf) (hn : s1.name = s2.name) :
    ((r.register s1).register s2).get s2.name = .ok s2 ∧
    ((r.register s1).register s2).wf ∧
    ((((r.register s1).register s2).scanners.map (·.1)).count s2.name) = 1 := by
  have hwf2 : ((r.register s1).register s2).wf := by
    unfold Registry.wf at hw ⊢
    unfold Registry.register
    exact mapUpdate_nodup _ _ _ (mapUpdate_nodup _ _ _ hw)
  have hget : ((r.register s1).register s2).get s2.name = .ok s2 := by
    unfold Registry.get Registry.register
    rw [lookup_mapUpdate_self]
  have hmem : s2.name ∈ (((r.register s1).register s2).scanners.map (·.1)) := by
    rw [← lookup_isSome_iff]
    unfold Registry.register
    rw [lookup_mapUpdate_self]
    rfl
  exact ⟨hget, hwf2, List.count_eq_one_of_mem hwf2 hmem⟩

/-- C10 witness: registering `errScanner "a" "m1"` then `okScanner "a"` in a
fresh registry. -/
theorem register_last_wins_witness :
    ((NewRegistry.register (errScanner "a" "m1")).register
        (okScanner "a")).get (okScanner "a").name = .ok (okScanner "a") ∧
    ((NewRegistry.register (errScanner "a" "m1")).register (okScanner "a")).wf ∧
    ((((NewRegistry.register (errScanner "a" "m1")).register
        (okScanner "a")).scanners.map (·.1)).count (okScanner "a").name) = 1 :=
  register_last_wins NewRegistry (errScanner "a" "m1") (okScanner "a")
    (by simp [NewRegistry, Registry.wf]) rfl

/-- C4: two `Create` calls that observe the same `time.Now().UnixNano()`
reading (42) allocate the same job id, and the second call's map insert
overwrites the first job: only one job remains stored, and it is the second
one. This contradicts the claim that ids are always distinct and both jobs
remain stored; `defaultNewUUID` carries no counter despite its comment. -/
theorem create_id_collision :
    (NewManager.create sampleTarget ["a"] DefaultOptions 42 100).1.id
        = secondCreate.1.id ∧
    secondCreate.2.jobs.length = 1 ∧
    secondCreate.2.get "42" = .ok secondCreate.1 := by
  refine ⟨rfl, rfl, rfl⟩

/-- C8 counterexample: with `options.timeout = 0` the execute path installs
no deadline at all, while the claim's formula would demand a deadline of
`0 * (1 + 1)`. -/
theorem jobDeadline_zero_counterexample :
    jobDeadline 0 1 = none ∧ jobDeadline 0 1 ≠ some (0 * (((1 : Nat) : Int) + 1)) := by
  refine ⟨rfl, by decide⟩

/-- C8 (amended): whenever `options.timeout > 0`, the per-job deadline is
exactly `timeout * (numScanners + 1)` — multiplicative in the scanner count,
strictly exceeding a flat per-call timeout as soon as there is at least one
scanner. -/
theorem jobDeadline_multiplicative (timeout : Int) (n : Nat) (h : 0 < timeout) :
    jobDeadline timeout n = some (timeout * ((n : Int) + 1)) ∧
    (1 ≤ n → timeout < timeout * ((n : Int) + 1)) := by
  constructor
  · unfold jobDeadline
    rw [if_pos h]
  · intro hn
    have h2 : (1 : Int) < (n : Int) + 1 := by omega
    calc timeout = timeout * 1 := by ring
    _ < timeout * ((n : Int) + 1) := by
        exact mul_lt_mul_of_pos_left h2 h

/-- C8 witness: timeout 5 ns and 3 scanners give a 20 ns deadline. -/
theorem jobDeadline_multiplicative_witness :
    jobDeadline 5 3 = some (5 * (((3 : Nat) : Int) + 1)) ∧
    (1 ≤ 3 → (5 : Int) < 5 * (((3 : Nat) : Int) + 1)) :=
  jobDeadline_multiplicative 5 3 (by decide)

/-- C6 counterexample: the not-found errors do carry exactly the
conventional messages, but they are plain `fmt.Errorf` string errors — the
value returned is `errorString`, not a distinguishable typed NotFound
error, refuting the typed-error part of the claim. -/
theorem notfound_untyped_counterexample :
    NewRegistry.get "x"
        = .error (.errorString ("scanner " ++ goQuote "x" ++ " not found")) ∧
    NewManager.get "j"
        = .error (.errorString ("job " ++ goQuote "j" ++ " not found")) ∧
    ("scanner " ++ goQuote "x" ++ " not found") = "scanner \"x\" not found" ∧
    ("job " ++ goQuote "j" ++ " not found") = "job \"j\" not found" ∧
    GoError.isTypedNotFound
        (.errorString ("scanner " ++ goQuote "x" ++ " not found")) = false ∧
    GoError.isTypedNotFound
        (.errorString ("job " ++ goQuote "j" ++ " not found")) = false := by
  refine ⟨rfl, rfl, rfl, rfl, rfl, rfl⟩

/-- C6 (amended): Registry.Get on an unregistered name and
Manager.Get/Start/Delete on an unknown job id fail with errors whose
messages are exactly the conventions `scanner "<name>" not found` and
`job "<id>" not found`, but these are untyped `fmt.Errorf` values: no
returned error is a distinguishable typed NotFound error, so callers can
only inspect the message string. -/
theorem notfound_message_convention (r : Registry) (m : ManagerState)
    (name id : String) (now : Int)
    (hr : r.scanners.lookup name = none) (hm : m.jobs.lookup id = none) :
    r.get name
        = .error (.errorString ("scanner " ++ goQuote name ++ " not found")) ∧
    m.get id = .error (.errorString ("job " ++ goQuote id ++ " not found")) ∧
    m.start id now
        = .error (.errorString ("job " ++ goQuote id ++ " not found")) ∧
    m.delete id
        = .error (.errorString ("job " ++ goQuote id ++ " not found")) ∧
    (∀ e : GoError, r.get name = .error e → e.isTypedNotFound = false) ∧
    (∀ e : GoError, m.get id = .error e → e.isTypedNotFound = false) := by
  have h1 : r.get name
      = .error (.errorString ("scanner " ++ goQuote name ++ " not found")) := by
    unfold Registry.get
    rw [hr]
  have h2 : m.get id
      = .error (.errorString ("job " ++ goQuote id ++ " not found")) := by
    unfold ManagerState.get
    rw [hm]
  have h3 : m.start id now
      = .error (.errorString ("job " ++ goQuote id ++ " not found")) := by
    unfold ManagerState.start
    rw [hm]
  have h4 : m.delete id
      = .error (.errorString ("job " ++ goQuote id ++ " not found")) := by
    unfold ManagerState.delete
    rw [hm]
  refine ⟨h1, h2, h3, h4, ?_, ?_⟩
  · intro e he
    rw [h1] at he
    have : GoError.errorString ("scanner " ++ goQuote name ++ " not found") = e := by
      cases he
      rfl
    rw [← this]
    rfl
  · intro e he
    rw [h2] at he
    have : GoError.errorString ("job " ++ goQuote id ++ " not found") = e := by
      cases he
      rfl
    rw [← this]
    rfl

/-- C6 witness: the empty registry with name "x" and the empty manager with
job id "j". -/
theorem notfound_message_convention_witness :
    NewRegistry.get "x"
        = .error (.errorString ("scanner " ++ goQuote "x" ++ " not found")) ∧
    NewManager.get "j"
        = .error (.errorString ("job " ++ goQuote "j" ++ " not found")) ∧
    NewManager.start "j" 0
        = .error (.errorString ("job " ++ goQuote "j" ++ " not found")) ∧
    NewManager.delete "j"
        = .error (.errorString ("job " ++ goQuote "j" ++ " not found")) ∧
    (∀ e : GoError, NewRegistry.get "x" = .error e → e.isTypedNotFound = false) ∧
    (∀ e : GoError, NewManager.get "j" = .error e → e.isTypedNotFound = false) :=
  notfound_message_convention NewRegistry NewManager "x" "j" 0 rfl rfl

/-- C7 counterexample: RunOne returns `(nil, error)` for the registered
scanner `errScanner "e" "boom"` (as the repository's dirs scanner does on a
wordlist failure), so a nil-result/non-nil-error pair does not only arise
from registry lookup failure; and for the registered `nilNilScanner` it
returns `(nil, nil)`. -/
theorem runOne_counterexample :
    (sampleRegErr.scanners.lookup "e").isSome = true ∧
    Runner.runOne sampleRegErr "e" sampleTarget DefaultOptions
        = (none, some (.errorString "boom")) ∧
    (sampleRegNilNil.scanners.lookup "nilnil").isSome = true ∧
    Runner.runOne sampleRegNilNil "nilnil" sampleTarget DefaultOptions
        = (none, none) := by
  refine ⟨rfl, rfl, rfl, rfl⟩

/-- C7 (amended): RunOne returns `(nil, not-found error)` exactly when the
registry lookup fails; for a registered scanner it returns the scanner's
own pair unchanged — so Go-level errors (and even a nil result with a nil
error) also arise whenever the scanner itself produces them. -/
theorem runOne_delegation (reg : Registry) (name : String) (t : Target)
    (o : Options) :
    (reg.scanners.lookup name = none →
      Runner.runOne reg name t o
        = (none, some (.errorString ("scanner " ++ goQuote name ++ " not found")))) ∧
    (∀ s : Scanner, reg.scanners.lookup name = some s →
      Runner.runOne reg name t o = s.run t o) := by
  constructor
  · intro h
    unfold Runner.runOne Registry.get
    rw [h]
  · intro s h
    unfold Runner.runOne Registry.get
    rw [h]

/-- C7 witness: the registered scanner `okScanner "a"`. -/
theorem runOne_delegation_witness :
    Runner.runOne sampleRegOk "a" sampleTarget DefaultOptions
      = (okScanner "a").run sampleTarget DefaultOptions :=
  (runOne_delegation sampleRegOk "a" sampleTarget DefaultOptions).2
    (okScanner "a") rfl

/-- C3 counterexample: Start on a job whose status is already Completed
succeeds and re-sets the status to Running — the source performs no status
check, so Start is not restricted to Pending jobs. -/
theorem start_no_status_guard :
    completedJob.status = .completed ∧
    sampleManager.start "1" 7
      = .ok ⟨[("1", { completedJob with status := .running, startedAt := 7 })]⟩ := by
  refine ⟨rfl, rfl⟩

/-- C3 (amended): Start fails (with the not-found error) only for an
unknown job id, and changes nothing in that case; for any stored job —
whatever its status, including Running, Completed and Failed — Start
succeeds and sets the status to Running with startedAt updated. -/
theorem start_transitions (m : ManagerState) (id : String) (now : Int) :
    (m.jobs.lookup id = none →
      m.start id now
        = .error (.errorString ("job " ++ goQuote id ++ " not found"))) ∧
    (∀ job : Job, m.jobs.lookup id = some job →
      ∃ m' : ManagerState, m.start id now = .ok m' ∧
        m'.get id = .ok { job with status := .running, startedAt := now }) := by
  constructor
  · intro h
    unfold ManagerState.start
    rw [h]
  · intro job h
    refine ⟨⟨mapUpdate m.jobs id { job with status := .running, startedAt := now }⟩,
      ?_, ?_⟩
    · unfold ManagerState.start
      rw [h]
    · unfold ManagerState.get
      rw [lookup_mapUpdate_self]

/-- C3 witness: starting the already-completed stored job "1". -/
theorem start_transitions_witness :
    ∃ m' : ManagerState, sampleManager.start "1" 7 = .ok m' ∧
      m'.get "1" = .ok { completedJob with status := .running, startedAt := 7 } :=
  (start_transitions sampleManager "1" 7).2 completedJob rfl

/-- C5: in every state reachable by the admission gate's transitions from a
RunAll start state, the number of scanner Run calls in flight (tasks
holding a gate slot) never exceeds max(1, opts.concurrency). -/
theorem gate_concurrency_bound (opts : Options) (n : Nat) (s : GateState)
    (h : Relation.ReflTransGen (GateStep (boundedConcurrency opts.concurrency))
          (gateInit n) s) :
    s.running ≤ boundedConcurrency opts.concurrency := by
  induction h with
  | refl => simp [gateInit]
  | tail _ hstep ih =>
    cases hstep with
    | acquire hw hr => exact hr
    | finish hr => exact le_trans (Nat.sub_le _ _) ih
    | cancel hw => exact ih

/-- C5 witness: with concurrency 2 and three tasks, the state after one
admission (one Run in flight) is reachable and within the bound. -/
theorem gate_concurrency_bound_witness :
    GateState.running ⟨2, 1, 0⟩
      ≤ boundedConcurrency (Options.concurrency { concurrency := 2 }) :=
  gate_concurrency_bound { concurrency := 2 } 3 ⟨2, 1, 0⟩
    (Relation.ReflTransGen.single
      (GateStep.acquire (gateInit 3) (by decide) (by decide)))

/-- C1 counterexample: a single registered scanner whose Run returns a nil
result with a nil error yields an empty result slice for a one-name batch —
RunAll silently drops such entries, so the returned slice does not always
have one entry per requested name. -/
theorem runAll_count_counterexample :
    Runner.runAll sampleRegNilNil ["nilnil"] sampleTarget DefaultOptions
        (fun _ => false) = [] ∧
    (["nilnil"] : List String).length = 1 := by
  refine ⟨rfl, rfl⟩

/-- C1 (amended): for every list of N names, RunAll returns exactly N
entries — one per name, including synthesized failure entries for unknown
names and for tasks cancelled before gate admission — provided no
registered scanner returns a nil result together with a nil error (such
returns are silently dropped). -/
theorem runAll_length (reg : Registry) (names : List String) (t : Target)
    (o : Options) (c : Nat → Bool)
    (hno : ∀ p ∈ reg.scanners, ∀ t' o', p.2.run t' o' ≠ (none, none)) :
    (Runner.runAll reg names t o c).length = names.length := by
  unfold Runner.runAll
  exact runAllAux_length reg t o c hno 0 names

/-- C1 witness: two names, one registered ("a") and one unknown ("b"),
produce exactly two entries. -/
theorem runAll_length_witness :
    (Runner.runAll sampleRegOk ["a", "b"] sampleTarget DefaultOptions
        (fun _ => false)).length = (["a", "b"] : List String).length :=
  runAll_length sampleRegOk ["a", "b"] sampleTarget DefaultOptions
    (fun _ => false)
    (by
      intro p hp t' o'
      have hpp : p = ("a", okScanner "a") := by
        simpa [sampleRegOk, NewRegistry, Registry.register, mapUpdate] using hp
      subst hpp
      simp [okScanner])

/-- C2 counterexample: a completed job whose single scanner returned a nil
result with a nil error ends with zero stored results but
completedScanners = totalScanners = 1, refuting
`len(results) == completedScanners` for completed jobs. -/
theorem job_invariant_counterexample :
    (executeRun sampleRegNilNil
        ((NewManager.create sampleTarget ["nilnil"] DefaultOptions 42 100).1)
        200).status = .completed ∧
    (executeRun sampleRegNilNil
        ((NewManager.create sampleTarget ["nilnil"] DefaultOptions 42 100).1)
        200).results.length = 0 ∧
    (executeRun sampleRegNilNil
        ((NewManager.create sampleTarget ["nilnil"] DefaultOptions 42 100).1)
        200).progress.completedScanners = 1 ∧
    (executeRun sampleRegNilNil
        ((NewManager.create sampleTarget ["nilnil"] DefaultOptions 42 100).1)
        200).progress.totalScanners = 1 := by
  refine ⟨rfl, rfl, rfl, rfl⟩

/-- C2 (amended): for a freshly created job (empty results, zero completed
scanners, totalScanners = number of scanner names), a run that completes
normally satisfies `len(results) = completedScanners = totalScanners` —
provided no scanner invocation returns a nil result with a nil error (such
results are dropped while the counter still advances); and a run that ends
by panic recovery is Failed with a non-empty error and
`completedScanners ≤ totalScanners`, unconditionally. -/
theorem job_execution_invariants (reg : Registry) (job : Job) (ne : Int)
    (hres : job.results = [])
    (hcs : job.progress.completedScanners = 0)
    (htot : job.progress.totalScanners = job.scanners.length) :
    ((∀ p ∈ reg.scanners, ∀ t' o', p.2.run t' o' ≠ (none, none)) →
     (executeRun reg job ne).status = .completed ∧
     (executeRun reg job ne).results.length
        = (executeRun reg job ne).progress.completedScanners ∧
     (executeRun reg job ne).progress.completedScanners
        = (executeRun reg job ne).progress.totalScanners) ∧
    (∀ (k : Nat) (panicMsg : String),
      (executePanicked reg job ne k panicMsg).status = .failed ∧
      (executePanicked reg job ne k panicMsg).error ≠ "" ∧
      (executePanicked reg job ne k panicMsg).progress.completedScanners
        ≤ (executePanicked reg job ne k panicMsg).progress.totalScanners) := by
  have hprog := foldl_executeStep_progress reg job.scanners job
  constructor
  · intro hno
    have hlen := foldl_executeStep_results reg job.scanners job hno
    refine ⟨rfl, ?_, ?_⟩
    · show (job.scanners.foldl (executeStep reg) job).results.length
          = (job.scanners.foldl (executeStep reg) job).progress.completedScanners
      rw [hlen, hprog.1, hres, hcs]
      simp
    · show (job.scanners.foldl (executeStep reg) job).progress.completedScanners
          = (job.scanners.foldl (executeStep reg) job).progress.totalScanners
      rw [hprog.1, hprog.2.1, hcs, htot]
      simp
  · intro k panicMsg
    have hp := foldl_executeStep_progress reg (job.scanners.take k) job
    refine ⟨rfl, ?_, ?_⟩
    · show ("panic: " ++ panicMsg) ≠ ""
      intro h
      have hl := congrArg String.length h
      rw [String.length_append] at hl
      have h7 : ("panic: " : String).length = 7 := rfl
      have h0 : ("" : String).length = 0 := rfl
      rw [h7, h0] at hl
      omega
    · unfold executePanicked
      cases hget : job.scanners.get? k with
      | none =>
        simp only [hget]
        show ((job.scanners.take k).foldl (executeStep reg) job).progress.completedScanners
            ≤ ((job.scanners.take k).foldl (executeStep reg) job).progress.totalScanners
        rw [hp.1, hp.2.1, hcs, htot, List.length_take]
        exact le_trans (Nat.zero_add _ ▸ Nat.min_le_right k job.scanners.length)
          (le_refl _)
      | some name =>
        simp only [hget]
        show ((job.scanners.take k).foldl (executeStep reg) job).progress.completedScanners
            ≤ ((job.scanners.take k).foldl (executeStep reg) job).progress.totalScanners
        rw [hp.1, hp.2.1, hcs, htot, List.length_take]
        exact le_trans (Nat.zero_add _ ▸ Nat.min_le_right k job.scanners.length)
          (le_refl _)

/-- C2 witness: the freshly created job for scanner "a" run against the
registry holding `okScanner "a"`, with the panic case instantiated at
index 0 and message "boom". -/
theorem job_execution_invariants_witness :
    ((executeRun sampleRegOk sampleCreatedJob 200).status = .completed ∧
     (executeRun sampleRegOk sampleCreatedJob 200).results.length
        = (executeRun sampleRegOk sampleCreatedJob 200).progress.completedScanners ∧
     (executeRun sampleRegOk sampleCreatedJob 200).progress.completedScanners
        = (executeRun sampleRegOk sampleCreatedJob 200).progress.totalScanners) ∧
    ((executePanicked sampleRegOk sampleCreatedJob 200 0 "boom").status = .failed ∧
     (executePanicked sampleRegOk sampleCreatedJob 200 0 "boom").error ≠ "" ∧
     (executePanicked sampleRegOk sampleCreatedJob 200 0 "boom").progress.completedScanners
        ≤ (executePanicked sampleRegOk sampleCreatedJob 200 0 "boom").progress.totalScanners) := by
  have hno : ∀ p ∈ sampleRegOk.scanners, ∀ t' o',
      p.2.run t' o' ≠ (none, none) := by
    intro p hp t' o'
    have hpp : p = ("a", okScanner "a") := by
      simpa [sampleRegOk, NewRegistry, Registry.register, mapUpdate] using hp
    subst hpp
    simp [okScanner]
  exact ⟨(job_execution_invariants sampleRegOk sampleCreatedJob 200
      rfl rfl rfl).1 hno,
    (job_execution_invariants sampleRegOk sampleCreatedJob 200
      rfl rfl rfl).2 0 "boom"⟩
